import Mathlib

/-!
Shallow embedding of the paperbot (src/main.py): the reference index built from
the WG21 paper feed, the derived search index, the message formatters, and the
chat command handler's poll cycle.  Python strings are modeled as Lean `String`
(ASCII case conversions; `\d` and `\s` modeled as their ASCII sets), machine
integers as `Int`/`Nat`, Python dicts as insertion-ordered association lists,
and exceptions (`KeyError`, `IndexError`, `AttributeError`, `SystemExit`,
`StopIteration`) as an `Except` error type.
-/

/-- Exception classes that can escape the Python functions modeled here. -/
inductive PyErr where
  | keyError
  | indexError
  | attributeError
  | systemExit
  | stopIteration
deriving DecidableEq, Repr

deriving instance DecidableEq for Except

/-- The characters Python's `\s` matches (ASCII). -/
def isPySpaceChar (c : Char) : Bool :=
  c == ' ' || c == '\t' || c == '\n' || c == '\r' || c == '\x0b' || c == '\x0c'

/-- Decimal value of an ASCII digit. -/
def digitVal (c : Char) : Nat := c.toNat - '0'.toNat

/-- Value of a string of decimal digits, as Python `int()` reads it. -/
def digitsToNat (ds : List Char) : Nat := ds.foldl (fun a c => 10 * a + digitVal c) 0

/-- `l1` is a prefix of `l2` (Python `str.startswith` on char lists). -/
def listIsPrefix : List Char → List Char → Bool
  | [], _ => true
  | _ :: _, [] => false
  | a :: as_, b :: bs => a == b && listIsPrefix as_ bs

/-- `needle` occurs as a contiguous substring of `hay` (Python `in` on strings). -/
def listHasSubstr (needle : List Char) : List Char → Bool
  | [] => listIsPrefix needle []
  | c :: t => listIsPrefix needle (c :: t) || listHasSubstr needle t

/-- Python `needle in hay` for strings. -/
def isSubstrOf (needle hay : String) : Bool := listHasSubstr needle.data hay.data

/-- Python `str.lower()` (ASCII model). -/
def strLower (s : String) : String := ⟨s.data.map Char.toLower⟩

/-- Python `str.upper()` (ASCII model). -/
def strUpper (s : String) : String := ⟨s.data.map Char.toUpper⟩

/-- Split on an exact separator (Python `str.split(sep)`); the separators in
this program are the two-character `", "`.  A match consumes the whole
separator, so the scan resumes `|sep| - 1` characters into the tail. -/
def splitSepGo (sep : List Char) : Nat → List Char → List Char → List (List Char)
  | _, [], acc => [acc.reverse]
  | 0, cs, acc => [acc.reverse ++ cs]
  | fuel + 1, c :: t, acc =>
      if listIsPrefix sep (c :: t) then
        acc.reverse :: splitSepGo sep fuel (t.drop (sep.length - 1)) []
      else splitSepGo sep fuel t (c :: acc)

/-- Python `s.split(sep)` for a nonempty literal separator.  Every step of
the scan consumes at least one character, so `s.length` steps always
suffice (the fuel makes the recursion structural). -/
def splitOnStr (s sep : String) : List String :=
  (splitSepGo sep.data s.data.length s.data []).map (fun l => ⟨l⟩)

/-- Split at every character satisfying `p`, keeping (possibly empty) chunks. -/
def splitChunks (p : Char → Bool) : List Char → List Char → List (List Char)
  | [], acc => [acc.reverse]
  | c :: t, acc => if p c then acc.reverse :: splitChunks p t [] else splitChunks p t (c :: acc)

/-- Python `str.strip()` (ASCII whitespace model, see `isPySpace`). -/
def pyStrip (s : String) : String :=
  ⟨((s.data.dropWhile isPySpaceChar).reverse.dropWhile isPySpaceChar).reverse⟩

/-- Python `str.startswith(pre)`. -/
def pyStartsWith (s pre : String) : Bool := listIsPrefix pre.data s.data

/-- `str.replace(' ', '')` as used on extracted references. -/
def removeSpaces (s : String) : String := ⟨s.data.filter (fun c => !(c == ' '))⟩

/-!
## The revision resolver

`PaperIndex.reference_and_revision_regex = re.compile(r'(.+)R(\d+)')`, used with
`re.match`, which anchors at the start of the string but not at the end.  The
greedy `(.+)` makes the match pick the last position `i` such that the char at
`i` is `R`, the char at `i+1` is a digit, and everything before `i` is
newline-free (Python `.` does not match a newline) and nonempty; `(\d+)` then
takes the maximal digit run after that `R`.  Characters after those digits are
ignored by `re.match`.
-/

/-- Position `i` of `cs` is a spot where `(.+)R(\d+)` can place its `R`. -/
def revValidAt (cs : List Char) (i : Nat) : Bool :=
  decide (1 ≤ i) && decide (i + 1 < cs.length) && (cs.getD i ' ' == 'R')
    && (cs.getD (i + 1) ' ').isDigit && (cs.take i).all (fun c => !(c == '\n'))

/-- The position of `R` chosen by the greedy match, if any: the last valid one. -/
def lastRevPos (cs : List Char) : Option Nat :=
  ((List.range cs.length).filter (revValidAt cs)).getLast?

/-- `re.match(r'(.+)R(\d+)', s)`, returning `(group(1), int(group(2)))`. -/
def pyRefRevMatch (s : String) : Option (String × Nat) :=
  match lastRevPos s.data with
  | none => none
  | some i =>
      some ((s.data.take i).asString, digitsToNat ((s.data.drop (i + 1)).takeWhile Char.isDigit))

/-- `PaperIndex._rebuild_index.extract_reference__and_revision_from_id`:
`(m.group(1), int(m.group(2))) if m else (id, 0)`. -/
def extract_reference__and_revision_from_id (id : String) : String × Nat :=
  match pyRefRevMatch id with
  | some (base, rev) => (base, rev)
  | none => (id, 0)

/-- Spec-side checker, from the claim's words: the id matches, in full, the
grammar "base (nonempty), then a literal `R`, then one or more digits". -/
def spec_full_rev_form (id : String) : Bool :=
  let cs := id.data
  let ds := (cs.reverse.takeWhile Char.isDigit).reverse
  let pre := cs.take (cs.length - ds.length)
  !ds.isEmpty && (pre.getLast? == some 'R') && decide (2 ≤ pre.length)

/-- Spec-side checker for the amended claim: some nonempty prefix of the id is
followed by a literal `R` and at least one digit. -/
def has_rev_pattern (id : String) : Bool :=
  (List.range id.data.length).any (revValidAt id.data)

/-- The trailing characters after the matched digits cannot host the greedy
match: every later occurrence of `R` immediately followed by a digit is cut
off by a newline before it (within the tail), so `(.+)` cannot reach it.
When the tail has no `R`-digit occurrence at all this holds vacuously. -/
def tail_rev_blocked (rest : List Char) : Prop :=
  ∀ j, rest.getD j ' ' = 'R' → (rest.getD (j + 1) ' ').isDigit = true →
    ∃ m, m < j ∧ rest.getD m ' ' = '\n'

/-!
## The reference index

A feed record (one value of the `index_payload` dict).  The `type` field is a
plain string (its value drives the formatter factory); all other fields are
optional, matching how the code guards (or fails to guard) their access.
`section` is a Lean keyword, so that field is named `section_` here.
-/

structure DocInfo where
  type : String
  title : Option String := none
  date : Option String := none
  section_ : Option String := none
  submitter : Option String := none
  author : Option String := none
  subgroup : Option String := none
  github_url : Option String := none
  issues : Option (List String) := none
  papers : Option (List String) := none
  long_link : Option String := none
deriving DecidableEq, Repr

/-- Lookup in an insertion-ordered association list (Python dict read). -/
def dictLookup {β : Type} : List (String × β) → String → Option β
  | [], _ => none
  | (k, v) :: t, key => if k = key then some v else dictLookup t key

/-- `d[k] = v` on an insertion-ordered association list: an existing key keeps
its position, a new key is appended (Python dict write). -/
def dictInsert {β : Type} : List (String × β) → String → β → List (String × β)
  | [], key, v => [(key, v)]
  | (k, w) :: t, key, v => if k = key then (key, v) :: t else (k, w) :: dictInsert t key v

/-- `k in d` on an association list. -/
def dictHasKey {β : Type} (d : List (String × β)) (key : String) : Bool :=
  (dictLookup d key).isSome

/-- One reference group: the per-id records of `updated_index[reference]`, and
the `'_'` slot holding the latest pointer (modeled as a separate field rather
than a magic dict key). -/
structure RefGroup where
  entries : List (String × DocInfo)
  latest : Option String
deriving DecidableEq, Repr

/-- The reference index: base reference → group. -/
def Index := List (String × RefGroup)

instance : DecidableEq Index := by unfold Index; infer_instance

/-- One iteration of the `for id, info in index_payload.items()` loop of
`PaperIndex._rebuild_index`. -/
def rebuild_step (acc : List (String × RefGroup)) (kv : String × DocInfo) : List (String × RefGroup) :=
  let reference := (extract_reference__and_revision_from_id kv.1).1
  let revision := (extract_reference__and_revision_from_id kv.1).2
  -- `if reference not in updated_index: updated_index[reference] = {}`
  let g := (dictLookup acc reference).getD { entries := [], latest := none }
  -- `updated_index[reference][id] = info`
  let g1 : RefGroup := { g with entries := dictInsert g.entries kv.1 kv.2 }
  -- `_, latest_revision = extract_reference__and_revision_from_id(...) if '_' in ... else None, 0`
  -- Python parses this as `_, latest_revision = (X if c else None), 0`: the
  -- conditional's value is bound to `_` and discarded, and `latest_revision`
  -- is always 0, so the comparison below is always true.
  let _discarded :=
    if g1.latest.isSome then
      some (extract_reference__and_revision_from_id (g1.latest.getD "_"))
    else none
  let latest_revision : Nat := 0
  -- `if revision >= latest_revision: updated_index[reference]['_'] = id`
  let g2 : RefGroup := if revision ≥ latest_revision then { g1 with latest := some kv.1 } else g1
  dictInsert acc reference g2

/-- `PaperIndex._rebuild_index`: fold the feed payload (id → record, in feed
iteration order) into a fresh index. -/
def rebuild_index (index_payload : List (String × DocInfo)) : Index :=
  index_payload.foldl rebuild_step []

/-- `PaperIndex.fetch_info_for` (the resolve operation).  The
`self._try_refresh_index()` call re-ingests the same payload in this
single-threaded model, so resolution is performed directly against the given
(already rebuilt) index. -/
def fetch_info_for (idx : Index) (reference_or_id : String) : String × Option DocInfo :=
  -- `extract_reference_and_key_from_ref_or_id`
  let rk : String × String :=
    match pyRefRevMatch reference_or_id with
    | some (base, _) => (base, reference_or_id)
    | none =>
        (reference_or_id,
          match dictLookup idx reference_or_id with
          | some g => g.latest.getD "_"   -- `self._index[reference_or_id]['_']`; rebuild always sets it
          | none => "_")
  match dictLookup idx rk.1 with
  | some g =>
      match dictLookup g.entries rk.2 with
      | some info => (rk.2, some info)
      | none => (reference_or_id, none)
  | none => (reference_or_id, none)

/-!
## Date parsing (`_rebuild_search_index.get_date`)

`datetime.strptime` with each of the six accepted formats, modeled over ASCII:
`%Y` is exactly four digits, `%m` is `1[0-2]|0[1-9]|[1-9]`, `%d` is
`3[01]|[12]\d|0[1-9]|[1-9]`, `%b`/`%B` are the C-locale month names matched
case-insensitively, a literal space matches a run of whitespace, and the whole
string must be consumed.  `datetime()` then rejects year 0 and out-of-range
days (caught as `ValueError`, falling through to the next format).  A parsed
date is encoded as the natural number `y * 10000 + m * 100 + d`, which orders
exactly like the `datetime` values it stands for.
-/

/-- Match a literal character of the format string. -/
def parseLit (c : Char) : List Char → Option (List Char)
  | a :: rest => if a = c then some rest else none
  | [] => none

/-- A literal space in the format: one or more whitespace characters. -/
def parseSpaces1 : List Char → Option (List Char)
  | c :: rest => if isPySpaceChar c then some (rest.dropWhile isPySpaceChar) else none
  | [] => none

/-- `%Y`: exactly four digits. -/
def parseY4 : List Char → Option (Nat × List Char)
  | a :: b :: c :: d :: rest =>
      if a.isDigit && b.isDigit && c.isDigit && d.isDigit then
        some (1000 * digitVal a + 100 * digitVal b + 10 * digitVal c + digitVal d, rest)
      else none
  | _ => none

/-- `%m`: `1[0-2]|0[1-9]|[1-9]` (two-digit forms first; the branch choice is
deterministic because a digit can never match the following literal). -/
def parseMonth2 : List Char → Option (Nat × List Char)
  | a :: b :: rest =>
      if a = '1' && b.isDigit && digitVal b ≤ 2 then some (10 + digitVal b, rest)
      else if a = '0' && b.isDigit && 1 ≤ digitVal b then some (digitVal b, rest)
      else if a.isDigit && 1 ≤ digitVal a then some (digitVal a, b :: rest)
      else none
  | [a] => if a.isDigit && 1 ≤ digitVal a then some (digitVal a, []) else none
  | [] => none

/-- `%d`: `3[01]|[12]\d|0[1-9]|[1-9]`. -/
def parseDay2 : List Char → Option (Nat × List Char)
  | a :: b :: rest =>
      if a = '3' && (b = '0' || b = '1') then some (30 + digitVal b, rest)
      else if (a = '1' || a = '2') && b.isDigit then some (10 * digitVal a + digitVal b, rest)
      else if a = '0' && b.isDigit && 1 ≤ digitVal b then some (digitVal b, rest)
      else if a.isDigit && 1 ≤ digitVal a then some (digitVal a, b :: rest)
      else none
  | [a] => if a.isDigit && 1 ≤ digitVal a then some (digitVal a, []) else none
  | [] => none

/-- C-locale month abbreviations (`%b`). -/
def monthAbbrevs : List (String × Nat) :=
  [("jan", 1), ("feb", 2), ("mar", 3), ("apr", 4), ("may", 5), ("jun", 6),
   ("jul", 7), ("aug", 8), ("sep", 9), ("oct", 10), ("nov", 11), ("dec", 12)]

/-- C-locale full month names (`%B`).  No name is a prefix of another, so the
alternation order of the compiled pattern does not matter. -/
def monthFulls : List (String × Nat) :=
  [("january", 1), ("february", 2), ("march", 3), ("april", 4), ("may", 5), ("june", 6),
   ("july", 7), ("august", 8), ("september", 9), ("october", 10), ("november", 11),
   ("december", 12)]

/-- Case-insensitive month-name match against a table. -/
def parseMonthName (table : List (String × Nat)) (cs : List Char) : Option (Nat × List Char) :=
  table.findSome? (fun nm =>
    if (cs.take nm.1.length).map Char.toLower = nm.1.data then
      some (nm.2, cs.drop nm.1.length)
    else none)

/-- Leap year as `calendar.isleap`. -/
def isLeapYear (y : Nat) : Bool := y % 4 = 0 && (y % 100 ≠ 0 || y % 400 = 0)

/-- Days in a month, as the `datetime` constructor validates them. -/
def daysInMonth (y m : Nat) : Nat :=
  if m = 2 then (if isLeapYear y then 29 else 28)
  else if m = 4 || m = 6 || m = 9 || m = 11 then 30
  else 31

/-- The `datetime(year, month, day)` constructor: `ValueError` outside the
valid range, else the encoded date. -/
def mkValidDate (y m d : Nat) : Option Nat :=
  if 1 ≤ y && y ≤ 9999 && 1 ≤ d && d ≤ daysInMonth y m then
    some (y * 10000 + m * 100 + d)
  else none

/-- `strptime(s, '%Y-%m-%d')`. -/
def parseFmtYMD (cs : List Char) : Option Nat := do
  let (y, r1) ← parseY4 cs
  let r2 ← parseLit '-' r1
  let (m, r3) ← parseMonth2 r2
  let r4 ← parseLit '-' r3
  let (d, r5) ← parseDay2 r4
  if r5.isEmpty then mkValidDate y m d else none

/-- `strptime(s, '%d %b %Y')`. -/
def parseFmtDbY (cs : List Char) : Option Nat := do
  let (d, r1) ← parseDay2 cs
  let r2 ← parseSpaces1 r1
  let (m, r3) ← parseMonthName monthAbbrevs r2
  let r4 ← parseSpaces1 r3
  let (y, r5) ← parseY4 r4
  if r5.isEmpty then mkValidDate y m d else none

/-- `strptime(s, '%d %B %Y')`. -/
def parseFmtDBY (cs : List Char) : Option Nat := do
  let (d, r1) ← parseDay2 cs
  let r2 ← parseSpaces1 r1
  let (m, r3) ← parseMonthName monthFulls r2
  let r4 ← parseSpaces1 r3
  let (y, r5) ← parseY4 r4
  if r5.isEmpty then mkValidDate y m d else none

/-- `strptime(s, '%B %Y')` (day defaults to 1). -/
def parseFmtBY (cs : List Char) : Option Nat := do
  let (m, r1) ← parseMonthName monthFulls cs
  let r2 ← parseSpaces1 r1
  let (y, r3) ← parseY4 r2
  if r3.isEmpty then mkValidDate y m 1 else none

/-- `strptime(s, '%d %B, %Y')`. -/
def parseFmtDBcY (cs : List Char) : Option Nat := do
  let (d, r1) ← parseDay2 cs
  let r2 ← parseSpaces1 r1
  let (m, r3) ← parseMonthName monthFulls r2
  let r4 ← parseLit ',' r3
  let r5 ← parseSpaces1 r4
  let (y, r6) ← parseY4 r5
  if r6.isEmpty then mkValidDate y m d else none

/-- `strptime(s, '%d %b, %Y')`. -/
def parseFmtDbcY (cs : List Char) : Option Nat := do
  let (d, r1) ← parseDay2 cs
  let r2 ← parseSpaces1 r1
  let (m, r3) ← parseMonthName monthAbbrevs r2
  let r4 ← parseLit ',' r3
  let r5 ← parseSpaces1 r4
  let (y, r6) ← parseY4 r5
  if r6.isEmpty then mkValidDate y m d else none

/-- The `for accepted_format in accepted_formats` loop: first format that
parses wins. -/
def parse_date_any (cs : List Char) : Option Nat :=
  [parseFmtYMD, parseFmtDbY, parseFmtDBY, parseFmtBY, parseFmtDBcY, parseFmtDbcY].findSome?
    (fun p => p cs)

/-- The epoch value `datetime.strptime('1970-01-01', '%Y-%m-%d')`. -/
def epochDate : Nat := 19700101

/-- `_rebuild_search_index.get_date`: the record's `date` field (or `''` when
absent) through the accepted formats, defaulting to the epoch. -/
def get_date (dateField : Option String) : Nat :=
  let date_value := dateField.getD ""
  match parse_date_any date_value.data with
  | some dt => dt
  | none => epochDate

/-!
## The search index
-/

/-- One derived search entry (an element of `self._search_index`). -/
structure SearchEntry where
  id : String
  type : String
  date : Nat
  keywords : String
deriving DecidableEq, Repr

/-- `option.getD` written as the Python `d[k]` access it models: `KeyError`
when the field is absent. -/
def pyRequire {α : Type} : Option α → Except PyErr α
  | some a => .ok a
  | none => .error .keyError

/-- The keyword blob of one group: for every revision (the `'_'` slot aside),
`'{} {} {} {} {}'.format(key, title, section, submitter, author)`, joined with
spaces and lower-cased.  `data['title']` is accessed unguarded, so a record
with no title raises `KeyError` out of the rebuild. -/
def keywords_of_entries : List (String × DocInfo) → Except PyErr (List String)
  | [] => .ok []
  | (key, data) :: rest => do
      let title ← pyRequire data.title
      let piece := key ++ " " ++ title ++ " " ++ data.section_.getD "" ++ " "
        ++ data.submitter.getD "" ++ " " ++ data.author.getD ""
      let tail ← keywords_of_entries rest
      .ok (piece :: tail)

/-- `PaperIndex._rebuild_search_index`: one entry per reference group, typed
and dated from the record at the latest pointer. -/
def rebuild_search_index : Index → Except PyErr (List SearchEntry)
  | [] => .ok []
  | (reference, document) :: rest => do
      -- `document[document['_']]`
      let latestRec ← pyRequire (dictLookup document.entries (document.latest.getD "_"))
      let pieces ← keywords_of_entries document.entries
      let tail ← rebuild_search_index rest
      .ok ({ id := reference, type := latestRec.type, date := get_date latestRec.date,
             keywords := strLower (String.intercalate " " pieces) } :: tail)

/-- `search.matches_search`: every keyword a (case-sensitive) substring of the
entry's lower-cased keyword field, and the optional type filter. -/
def matches_search (keywords : List String) (ty : Option String) (entry : SearchEntry) : Bool :=
  keywords.all (fun keyword => isSubstrOf keyword entry.keywords) &&
    (match ty with
     | none => true
     | some t => entry.type == t)

/-- Descending-by-date order used by `sorted(..., key=lambda e: e['date'],
reverse=True)`. -/
def dateGe (a b : SearchEntry) : Prop := b.date ≤ a.date

instance : DecidableRel dateGe := fun a b => Nat.decLe b.date a.date

instance : IsTotal SearchEntry dateGe :=
  ⟨fun a b => Nat.le_total b.date a.date⟩

instance : IsTrans SearchEntry dateGe :=
  ⟨fun _ _ _ hab hbc => Nat.le_trans hbc hab⟩

/-- `PaperIndex.search`: filter, then Python's stable sort with
`reverse=True` — insertion sort under `dateGe` keeps equal dates in their
original relative order, exactly as `sorted` does. -/
def PaperIndex.search (sidx : List SearchEntry) (keywords : List String)
    (ty : Option String) : List SearchEntry :=
  let result := sidx.filter (matches_search keywords ty)
  List.insertionSort dateGe result

/-- Spec-side matcher, from the claim's words: every keyword is
*case-insensitively* a substring of the entry's keyword field. -/
def spec_matches_ci (keywords : List String) (ty : Option String) (entry : SearchEntry) : Bool :=
  keywords.all (fun keyword => isSubstrOf (strLower keyword) (strLower entry.keywords)) &&
    (match ty with
     | none => true
     | some t => entry.type == t)

/-!
## The message formatters

One function per `MessageFormatter` subclass.  Field reads `self._info['x']`
on possibly-absent fields are `pyRequire` (raising `KeyError`); the
`github_issue_no_regex.search(...).group(1)` chain raises `AttributeError`
when `re.search` returns `None` (no `/issues/<digits>` in the URL), which is
*not* caught by the `except KeyError` handlers downstream.
-/

/-- `MessageFormatter._escape_text`. -/
def escape_text (text : String) : String :=
  ⟨text.data.foldr (fun c acc =>
      if c = '[' then '\\' :: '[' :: acc
      else if c = ']' then '\\' :: ']' :: acc
      else if c = '(' then '\\' :: '(' :: acc
      else if c = ')' then '\\' :: ')' :: acc
      else c :: acc) []⟩

/-- `MessageFormatter._create_link`. -/
def create_link (text url : String) : String :=
  "[" ++ escape_text text ++ "](" ++ url ++ ")"

/-- `MessageFormatter._get_authors` (the `author` field is read by the caller). -/
def get_authors (author : String) : String :=
  let authors := splitOnStr author ", "
  if authors.length ≤ 2 then String.intercalate ", " authors
  else authors.headD "" ++ " et al."

/-- `_get_audience.translate_subgroup`. -/
def translate_subgroup (subgroup : String) : String :=
  if subgroup = "Core" then "CWG"
  else if subgroup = "Evolution" then "EWG"
  else if subgroup = "Library" then "LWG"
  else if subgroup = "Library Evolution" then "LEWG"
  else if subgroup = "Direction Group" then "DG"
  else if subgroup = "Library Evolution Incubator" then "LEWGI"
  else if subgroup = "Evolution Incubator" then "EWGI"
  else subgroup

/-- `MessageFormatter._get_audience`. -/
def get_audience (subgroup : String) : String :=
  String.intercalate ", " ((splitOnStr subgroup ", ").map translate_subgroup)

/-- `re.search(r'/issues/(\d+)', url)`: the first occurrence of the literal
`/issues/` followed by at least one digit, returning the maximal digit run. -/
def searchIssueNo : List Char → Option String
  | [] => none
  | c :: t =>
      let cs := c :: t
      if listIsPrefix "/issues/".data cs then
        let after := cs.drop 8
        let digs := after.takeWhile Char.isDigit
        if digs.isEmpty then searchIssueNo t else some digs.asString
      else searchIssueNo t

/-- `MessageFormatter._github_component` as reached from
`PaperMessageFormatter` (the only class defining `github_issue_no_regex`):
`AttributeError` when the URL has no `/issues/<digits>` part (`.group(1)` on
`None`). -/
def github_component (info : DocInfo) : Except PyErr (List String) :=
  match info.github_url with
  | none => .ok []
  | some url =>
      match searchIssueNo url.data with
      | some issueNo => .ok ["Github issue: " ++ create_link ("#" ++ issueNo) url]
      | none => .error .attributeError

/-- `MessageFormatter._github_component` as reached from
`IssueMessageFormatter`: `github_issue_no_regex` is a class attribute of
`PaperMessageFormatter` only (src/main.py:219), so the very attribute lookup
`self.github_issue_no_regex` raises `AttributeError` whenever a `github_url`
is present — regardless of the URL's shape. -/
def issue_github_component (info : DocInfo) : Except PyErr (List String) :=
  match info.github_url with
  | none => .ok []
  | some _ => .error .attributeError

/-- `MessageFormatter._related_issues_component`. -/
def related_issues_component (info : DocInfo) : List String :=
  match info.issues with
  | none => []
  | some issues =>
      let heading := if issues.length = 1 then "Related issue: " else "Related issues: "
      [heading ++ String.intercalate ", "
        (issues.map (fun r => create_link r ("https://wg21.link/" ++ r)))]

/-- `MessageFormatter._related_papers_component`. -/
def related_papers_component (info : DocInfo) : List String :=
  match info.papers with
  | none => []
  | some papers =>
      let heading := if papers.length = 1 then "Related paper: " else "Related papers: "
      [heading ++ String.intercalate ", "
        (papers.map (fun r => create_link r ("https://wg21.link/" ++ r)))]

/-- `MessageFormatter._format_message_components`. -/
def format_message_components (components : List String) : String :=
  String.intercalate " | " components

/-- `IssueMessageFormatter.format_message`. -/
def IssueMessageFormatter.format_message (reference : String) (info : DocInfo) :
    Except PyErr String := do
  let title ← pyRequire info.title
  let submitter ← pyRequire info.submitter
  let text := "[" ++ reference ++ "] " ++ title
  let extra_info := "submitted by " ++ submitter ++
    (match info.date with
     | some date => " (" ++ date ++ ")"
     | none => "")
  let long_link ← pyRequire info.long_link
  let paper_link := create_link text long_link
  let sectionComp :=
    match info.section_ with
    | some s => ["Section: " ++ s]
    | none => []
  let gh ← issue_github_component info
  .ok (format_message_components ([":speech_balloon:", paper_link ++ " " ++ extra_info]
    ++ sectionComp ++ gh ++ related_papers_component info))

/-- `PaperMessageFormatter.format_message`. -/
def PaperMessageFormatter.format_message (reference : String) (info : DocInfo) :
    Except PyErr String := do
  let title ← pyRequire info.title
  let text := "[" ++ reference ++ "]" ++
    (match info.subgroup with
     | some sg => " " ++ get_audience sg ++ ":"
     | none => "") ++ " " ++ title
  let extra_info :=
    (match info.author with
     | some a => " by " ++ get_authors a
     | none => "") ++
    (match info.date with
     | some date => " (" ++ date ++ ")"
     | none => "")
  let long_link ← pyRequire info.long_link
  let paper_link := create_link text long_link
  let gh ← github_component info
  .ok (format_message_components ([":rolled_up_newspaper:", paper_link ++ extra_info]
    ++ gh ++ related_issues_component info))

/-- `EditorialMessageFormatter.format_message`. -/
def EditorialMessageFormatter.format_message (reference : String) (info : DocInfo) :
    Except PyErr String := do
  let title ← pyRequire info.title
  let long_link ← pyRequire info.long_link
  .ok (format_message_components [":lower_left_ballpoint_pen: ",
    create_link ("[" ++ reference ++ "] " ++ title) long_link])

/-- `StandingDocumentMessageFormatter.format_message`. -/
def StandingDocumentMessageFormatter.format_message (reference : String) (info : DocInfo) :
    Except PyErr String := do
  let title ← pyRequire info.title
  let long_link ← pyRequire info.long_link
  .ok (format_message_components [":compass:",
    create_link ("[" ++ reference ++ "] " ++ title) long_link])

/-- `NotFoundMessageFormatter.format_message`. -/
def NotFoundMessageFormatter.format_message (reference : String) : String :=
  format_message_components [":mag:",
    "Sorry, I could not find an issue or paper called `" ++ reference ++ "` :worried:"]

/-- `MessageFormatterFactory.create_from_info` followed by the immediate
`.format_message()` call (the only way the factory is used).  The builder
dict lookup on an unknown `type` value raises `KeyError`. -/
def MessageFormatterFactory.create_and_format (reference : String) (info : Option DocInfo) :
    Except PyErr String :=
  match info with
  | none => .ok (NotFoundMessageFormatter.format_message reference)
  | some i =>
      if i.type = "issue" then IssueMessageFormatter.format_message reference i
      else if i.type = "paper" then PaperMessageFormatter.format_message reference i
      else if i.type = "editorial" then EditorialMessageFormatter.format_message reference i
      else if i.type = "standing-document" then
        StandingDocumentMessageFormatter.format_message reference i
      else .error .keyError

/-!
## The chat command handler

Messages, users and channels carry only the fields the handler reads.
Timestamps are integer epoch-milliseconds (`create_at` / `update_at` as the
chat transport delivers them); `datetime.now()` at processing time is the
`now` parameter, and `datetime.fromtimestamp(create_at / 1000.0)` versus
`now - timedelta(minutes=1)` becomes an exact comparison in milliseconds.
Side effects are reified as a list of `BotAction`s: `reply_to` posts and `print`
log lines; `sys.exit` and uncaught exceptions end the cycle through the
`Except` error channel (discarding that cycle's actions, as the process never
gets to perform anything user-visible after the stack unwinds).
-/

structure Post where
  id : String
  user_id : String
  channel_id : String
  message : String
  create_at : Int
  update_at : Int
  root_id : String
deriving DecidableEq, Repr

structure User where
  username : String
  nickname : String
  first_name : String
  last_name : String
deriving DecidableEq, Repr

/-- The bot's own identity (`self._chat_service.me()`). -/
structure BotIdent where
  id : String
  username : String
deriving DecidableEq, Repr

structure Channel where
  id : String
  display_name : String
  ctype : String   -- `channel['type']`
deriving DecidableEq, Repr

inductive BotAction where
  | reply (channel_id root_id text : String)
  | log (text : String)
deriving DecidableEq, Repr

def BotAction.isReply : BotAction → Bool
  | .reply _ _ _ => true
  | .log _ => false

/-- `ChatMessageService.reply_to`: the reply goes to the original post's
thread root, `original_post['root_id'] or original_post['id']` (an empty
`root_id` is falsy). -/
def reply_to (original_post : Post) (reply : String) : BotAction :=
  .reply original_post.channel_id
    (if original_post.root_id = "" then original_post.id else original_post.root_id) reply

/-- `'{} {}'.format(first_name, last_name) if first_name else '(none)'`. -/
def display_name_of (user : User) : String :=
  if user.first_name ≠ "" then user.first_name ++ " " ++ user.last_name else "(none)"

/-- `user['nickname'] or '(none)'`. -/
def nickname_of (user : User) : String :=
  if user.nickname = "" then "(none)" else user.nickname

/-- `run_once.filter_posts`: reject edited posts, the bot's own posts, posts
older than one minute, and posts inside a thread. -/
def filter_posts (now : Int) (bot_user_id : String) (message : Post) : Bool :=
  let is_update_message := message.update_at ≠ message.create_at
  let is_message_from_bot := message.user_id = bot_user_id
  let a_minute_ago := now - 60000
  let posted_more_than_a_minute_ago := message.create_at < a_minute_ago
  let is_message_in_thread := message.root_id ≠ ""
  !(is_update_message || is_message_from_bot || posted_more_than_a_minute_ago
    || is_message_in_thread)

/-!
### Reference extraction

`reference_mention_regex  = (?:(C|E|LE?)WG|FS|SD|N|P|D|EDIT) ?\d+(R\d+)?`
`reference_brackets_regex = \[((?:(C|E|LE?)WG|FS|SD|N|P|D|EDIT) ?\d+(R\d+)?)]`

Both are run with `finditer` over the upper-cased message.  The prefix
alternatives are mutually exclusive at any position, a space not followed by a
digit fails both branches of `' ?'`, and shrinking a greedy `\d+` always
leaves a digit in a spot where only `R`, `]` or the end can be, so each
pattern is matched by a deterministic scanner with no backtracking.
-/

/-- Length of the committee/paper prefix alternative matching at the head, in
source alternation order. -/
def matchPrefixTok (cs : List Char) : Option Nat :=
  if listIsPrefix "CWG".data cs then some 3
  else if listIsPrefix "EWG".data cs then some 3
  else if listIsPrefix "LEWG".data cs then some 4
  else if listIsPrefix "LWG".data cs then some 3
  else if listIsPrefix "FS".data cs then some 2
  else if listIsPrefix "SD".data cs then some 2
  else if listIsPrefix "N".data cs then some 1
  else if listIsPrefix "P".data cs then some 1
  else if listIsPrefix "D".data cs then some 1
  else if listIsPrefix "EDIT".data cs then some 4
  else none

/-- Length consumed by `(?:...) ?\d+(R\d+)?` matching at the head of `cs`. -/
def matchRefAt (cs : List Char) : Option Nat :=
  match matchPrefixTok cs with
  | none => none
  | some p =>
      let rest := cs.drop p
      let spRest : Nat × List Char :=
        match rest with
        | ' ' :: r2 => (1, r2)
        | _ => (0, rest)
      let digs := spRest.2.takeWhile Char.isDigit
      if digs.isEmpty then none
      else
        let rest3 := spRest.2.drop digs.length
        let rlen : Nat :=
          match rest3 with
          | 'R' :: r4 =>
              let ds2 := r4.takeWhile Char.isDigit
              if ds2.isEmpty then 0 else 1 + ds2.length
          | _ => 0
        some (p + spRest.1 + digs.length + rlen)

/-- `reference_mention_regex.finditer`: every non-overlapping bare reference,
left to right.  A successful match always consumes at least one character, so
the scanner resumes `n - 1` characters into the tail. -/
def scanBareRefsAux : Nat → List Char → List String
  | _, [] => []
  | 0, _ => []
  | fuel + 1, c :: t =>
      match matchRefAt (c :: t) with
      | some n => ((c :: t).take n).asString :: scanBareRefsAux fuel (t.drop (n - 1))
      | none => scanBareRefsAux fuel t

def scanBareRefs (cs : List Char) : List String := scanBareRefsAux cs.length cs

/-- `reference_brackets_regex` at the head: `[`, the core pattern, `]`;
returns the inner group and the total consumed length. -/
def matchBracketAt (cs : List Char) : Option (Nat × String) :=
  match cs with
  | '[' :: rest =>
      match matchRefAt rest with
      | some n =>
          if (rest.drop n).headD ' ' = ']' then some (n + 2, (rest.take n).asString)
          else none
      | none => none
  | _ => none

/-- `reference_brackets_regex.finditer`, collecting `match.group(1)`. -/
def scanBracketRefsAux : Nat → List Char → List String
  | _, [] => []
  | 0, _ => []
  | fuel + 1, c :: t =>
      match matchBracketAt (c :: t) with
      | some (n, g) => g :: scanBracketRefsAux fuel (t.drop (n - 1))
      | none => scanBracketRefsAux fuel t

def scanBracketRefs (cs : List Char) : List String := scanBracketRefsAux cs.length cs

/-- `ChatCommandHandler._collect_references_from_message`. -/
def collect_references_from_message (post : Post)
    (collect_references_without_brackets : Bool) : List String :=
  let up := (strUpper post.message).data
  (if collect_references_without_brackets then scanBareRefs up else []) ++ scanBracketRefs up

/-- `_handle_paper_request.deduplicate`: strip spaces, then `set(...)`.
A Python `set` of strings iterates in an unspecified (hash-randomized) order;
it is modeled as first-occurrence order, which fixes one of the admissible
orders. -/
def deduplicate (references : List String) : List String :=
  (references.map (fun r => removeSpaces r)).foldl
    (fun acc r => if acc.contains r then acc else acc ++ [r]) []

/-!
### Command handlers
-/

/-- Characters of `split_command_token_regex = [\s,\.;:!\?]+`. -/
def isCmdDelim (c : Char) : Bool :=
  isPySpaceChar c || c == ',' || c == '.' || c == ';' || c == ':' || c == '!' || c == '?'

/-- `re.split` on delimiter runs followed by
`filter(lambda token: len(token.strip()) >= 1, ...)`: the non-delimiter
chunks of the message. -/
def tokenize (message : String) : List String :=
  ((splitChunks isCmdDelim message.data []).map (fun l => (⟨l⟩ : String))).filter
    (fun token => 1 ≤ (pyStrip token).length)

/-- The resolve-and-render composition
`create_from_info(*fetch_info_for(reference)).format_message()`, shared by the
paper-lookup and search reply paths. -/
def format_of_reference (idx : Index) (reference : String) : Except PyErr String :=
  MessageFormatterFactory.create_and_format (fetch_info_for idx reference).1
    (fetch_info_for idx reference).2

/-- The per-reference loop of `_handle_paper_request`: each deduplicated
reference is resolved and formatted; `KeyError` is caught and logged, any
other exception propagates. -/
def paperLoop (idx : Index) : List String → Except PyErr (List String × List BotAction)
  | [] => .ok ([], [])
  | requested_reference :: rest =>
      match format_of_reference idx requested_reference with
      | .ok line => do
          let p ← paperLoop idx rest
          .ok (line :: p.1, p.2)
      | .error .keyError => do
          let p ← paperLoop idx rest
          .ok (p.1, .log ("Formatting document " ++ requested_reference ++ " failed") :: p.2)
      | .error e => .error e

/-- `ChatCommandHandler._handle_paper_request`: the reply is sent
unconditionally, even when no reference resolved (an empty message). -/
def _handle_paper_request (idx : Index) (_tokens : List String) (post : Post) (_user : User)
    (collect_references_without_brackets : Bool) : Except PyErr (List BotAction) :=
  let references := collect_references_from_message post collect_references_without_brackets
  match paperLoop idx (deduplicate references) with
  | .ok p => .ok (p.2 ++ [reply_to post (String.intercalate "\n" p.1)])
  | .error e => .error e

/-- `ChatCommandHandler._do_help`. -/
def _do_help (bot : BotIdent) (post : Post) (user : User) : Except PyErr (List BotAction) :=
  let reply := ":book: | Usage: \"@" ++ bot.username
    ++ " search [papers|issues|everything] <keywords>\"\n\t\t\t\tor \"@" ++ bot.username
    ++ " <Nxxxx|Pxxxx|PxxxxRx|Dxxxx|DxxxxRx|CWGxxx|EWGxxx|LWGxxx|LEWGxxx|FSxxx>\"\n\n"
    ++ bot.username ++ " will also lookup any paper posted in square brackets, even without being mentioned."
  .ok [.log ("Help requested by " ++ display_name_of user ++ " - " ++ nickname_of user
        ++ " (" ++ user.username ++ ")"),
       reply_to post reply]

/-- `ChatCommandHandler._do_kill`: non-operators are logged and ignored;
operators terminate the process via `sys.exit(1)` (`SystemExit`). -/
def _do_kill (_post : Post) (user : User) : Except PyErr (List BotAction) :=
  let operators : List String := ["tahonermann", "sbuettner"]
  if user.username ∉ operators then
    .ok [.log "Ignoring terminating request"]
  else
    .error .systemExit

/-- `l[i]` on a Python list: `IndexError` out of range. -/
def pyListGet {α : Type} (l : List α) (i : Nat) : Except PyErr α :=
  match l.get? i with
  | some a => .ok a
  | none => .error .indexError

/-- The numbered result list of `_do_search_impl`: any `KeyError` escapes the
whole comprehension (it is caught around the join, not per entry). -/
def searchLines (idx : Index) : List SearchEntry → Except PyErr (List String)
  | [] => .ok []
  | result :: rest => do
      let line ← format_of_reference idx result.id
      let tail ← searchLines idx rest
      .ok (line :: tail)

/-- `ChatCommandHandler._do_search_impl`. -/
def _do_search_impl (idx : Index) (sidx : List SearchEntry) (keywords : List String)
    (ty : Option String) (post : Post) (_user : User) : Except PyErr (List BotAction) :=
  let results := PaperIndex.search sidx keywords ty
  let displayed_results := if results.length > 15 then results.take 15 else results
  if displayed_results.length = 0 then .ok [reply_to post "No results found."]
  else
    match searchLines idx displayed_results with
    | .ok lines =>
        let result_list := String.intercalate "\n" (lines.map (fun l => "1. " ++ l))
        let reply := toString results.length ++ " results for your query"
          ++ (if results.length ≠ displayed_results.length then
                ", showing most recent " ++ toString displayed_results.length
              else "")
          ++ ":\n" ++ result_list
        .ok [reply_to post reply]
    | .error .keyError =>
        .ok [.log "Formatting of one or multiple documents failed",
             reply_to post "An error occurred."]
    | .error e => .error e

/-- `ChatCommandHandler._do_search`: `tokens[2]` is read unguarded, so a bare
`search` command with nothing after it raises `IndexError`. -/
def _do_search (idx : Index) (sidx : List SearchEntry) (tokens : List String) (post : Post)
    (user : User) : Except PyErr (List BotAction) := do
  let t2 ← pyListGet tokens 2
  let acts ←
    if t2 = "papers" then _do_search_impl idx sidx (tokens.drop 3) (some "paper") post user
    else if t2 = "issues" then _do_search_impl idx sidx (tokens.drop 3) (some "issue") post user
    else if t2 = "everything" then _do_search_impl idx sidx (tokens.drop 3) none post user
    else _do_search_impl idx sidx (tokens.drop 2) none post user
  .ok (.log (String.intercalate " " tokens) :: acts)

/-- `ChatCommandHandler._handle_bot_command`: inspect `tokens[1]` against the
command table, defaulting to the paper-lookup path (which then also collects
bare references). -/
def _handle_bot_command (bot : BotIdent) (idx : Index) (sidx : List SearchEntry) (post : Post)
    (user : User) : Except PyErr (List BotAction) :=
  let tokens := tokenize post.message
  let command := (tokens.get? 1).getD "_"
  if command = "help" then _do_help bot post user
  else if command = "kill" then _do_kill post user
  else if command = "search" then _do_search idx sidx tokens post user
  else _handle_paper_request idx tokens post user true

/-- `ChatCommandHandler._log_request_to_bot`: looks the channel up with
`next(filter(...))` — `StopIteration` if the post's channel is unknown — and
emits the audit log line.  (The direct-message bypass is dead code:
`if ... and False`.) -/
def _log_request_to_bot (channels : List Channel) (post : Post) (user : User) :
    Except PyErr (List BotAction) :=
  match channels.find? (fun channel => channel.id = post.channel_id) with
  | none => .error .stopIteration
  | some channel =>
      .ok [.log (display_name_of user ++ " - " ++ nickname_of user ++ " (" ++ user.username
        ++ ") mentioned the bot in channel "
        ++ (if channel.display_name = "" then "(none)" else channel.display_name)
        ++ " (" ++ channel.id ++ ") with message: " ++ post.message)]

/-- Everything `ChatCommandHandler.run_once` reads besides the poll batch. -/
structure BotContext where
  now : Int
  bot : BotIdent
  usersOf : String → User
  channels : List Channel
  idx : Index
  sidx : List SearchEntry

/-- The `for unread_post in filter(filter_posts, read_posts())` loop of
`run_once`: a message starting with a mention is dispatched as a command and
the loop `return`s; any other surviving message goes down the bracket-only
paper-lookup path and the loop continues. -/
def runPosts (ctx : BotContext) : List Post → Except PyErr (List BotAction)
  | [] => .ok []
  | unread_post :: rest =>
      if filter_posts ctx.now ctx.bot.id unread_post then
        let user := ctx.usersOf unread_post.user_id
        match
          (if isSubstrOf ("@" ++ ctx.bot.username) unread_post.message then
            _log_request_to_bot ctx.channels unread_post user
          else .ok []) with
        | .error e => .error e
        | .ok lg =>
            if pyStartsWith unread_post.message ("@" ++ ctx.bot.username) then
              match _handle_bot_command ctx.bot ctx.idx ctx.sidx unread_post user with
              | .ok acts => .ok (lg ++ acts)   -- `return`: the rest of the batch is dropped
              | .error e => .error e
            else
              match _handle_paper_request ctx.idx [] unread_post user false with
              | .ok acts =>
                  match runPosts ctx rest with
                  | .ok more => .ok (lg ++ acts ++ more)
                  | .error e => .error e
              | .error e => .error e
      else runPosts ctx rest

/-- `ChatCommandHandler.run_once` (one poll cycle over one batch). -/
def run_once (ctx : BotContext) (posts : List Post) : Except PyErr (List BotAction) :=
  runPosts ctx posts

/-- The lines of the successfully formatted references, in loop order. -/
def paper_success_lines (idx : Index) (refs : List String) : List String :=
  refs.filterMap (fun r => (format_of_reference idx r).toOption)

/-- The per-reference `KeyError` log lines, in loop order. -/
def paper_fail_logs (idx : Index) (refs : List String) : List BotAction :=
  refs.filterMap (fun r =>
    match format_of_reference idx r with
    | .error .keyError => some (.log ("Formatting document " ++ r ++ " failed"))
    | _ => none)

/-!
## Concrete inputs used by the closed evaluation theorems
-/

/-- A revision-1 record. -/
def c1infoA : DocInfo := { type := "paper", title := some "Revised version" }

/-- A revision-0 record, distinguishable from `c1infoA`. -/
def c1infoB : DocInfo := { type := "paper", title := some "Initial version" }

/-- A feed payload listing `P1234R1` (revision 1) before `P1234` (revision 0). -/
def c1payload : List (String × DocInfo) := [("P1234R1", c1infoA), ("P1234", c1infoB)]

/-- The same feed payload in the opposite order. -/
def c1payloadReversed : List (String × DocInfo) := [("P1234", c1infoB), ("P1234R1", c1infoA)]

/-- A one-paper feed whose title contains "Concepts". -/
def c2payload : List (String × DocInfo) :=
  [("P1", { type := "paper", title := some "Concepts", date := some "2020-01-01" })]

/-- The search entry derived from `c2payload`. -/
def c2entry : SearchEntry :=
  { id := "P1", type := "paper", date := 20200101, keywords := "p1 concepts   " }

/-- The bot's identity in the concrete poll cycles below. -/
def sampleBot : BotIdent := { id := "bot-id", username := "paperbot" }

/-- The author of the concrete messages below (not an operator). -/
def aliceUser : User := { username := "alice", nickname := "", first_name := "", last_name := "" }

/-- An operator (member of the `_do_kill` allow-list). -/
def operatorUser : User :=
  { username := "tahonermann", nickname := "", first_name := "", last_name := "" }

/-- The channel the concrete messages arrive on. -/
def sampleChannel : Channel := { id := "chan-1", display_name := "general", ctype := "O" }

/-- A fresh, unedited, non-threaded post by alice at time 1000000. -/
def mkPost (id msg : String) : Post :=
  { id := id, user_id := "user-alice", channel_id := "chan-1", message := msg,
    create_at := 1000000, update_at := 1000000, root_id := "" }

/-- A poll context over the given index pair, polled at time 1000000. -/
def mkCtx (idx : Index) (sidx : List SearchEntry) : BotContext :=
  { now := 1000000, bot := sampleBot, usersOf := fun _ => aliceUser,
    channels := [sampleChannel], idx := idx, sidx := sidx }

/-- A paper record whose `github_url` has no `/issues/<digits>` part. -/
def c6infoBad : DocInfo :=
  { type := "paper", title := some "Bad tracker", long_link := some "http://wg21.link/p1",
    github_url := some "https://github.com/cplusplus/papers" }

/-- A well-formed paper record. -/
def c6infoGood : DocInfo :=
  { type := "paper", title := some "T2", long_link := some "http://wg21.link/p2" }

/-- A feed with one malformed-tracker paper and one good one. -/
def c6payload : List (String × DocInfo) := [("P1", c6infoBad), ("P2", c6infoGood)]

/-!
## Helper lemmas
-/

theorem getLast?_filter_range (p : Nat → Bool) :
    ∀ n m : Nat, m < n → p m = true → (∀ k, k < n → p k = true → k ≤ m) →
      ((List.range n).filter p).getLast? = some m := by
  intro n
  induction n with
  | zero => intro m hm _ _; exact absurd hm (Nat.not_lt_zero m)
  | succ n ih =>
      intro m hm hp hmax
      rw [List.range_succ, List.filter_append]
      by_cases hpn : p n = true
      · have hmn : m = n := by
          have h1 := hmax n (Nat.lt_succ_self n) hpn
          omega
        subst hmn
        simp [List.filter_cons, hpn, List.getLast?_concat]
      · have hpn2 : p n = false := by
          simpa using hpn
        have hmn : m < n := by
          rcases Nat.lt_succ_iff_lt_or_eq.mp hm with h | h
          · exact h
          · subst h; rw [hp] at hpn2; exact absurd hpn2 (by simp)
        rw [show List.filter p [n] = [] by simp [hpn2], List.append_nil]
        exact ih m hmn hp (fun k hk hpk => hmax k (Nat.lt_succ_of_lt hk) hpk)

theorem takeWhile_digit_append (D R : List Char) (hdd : ∀ c ∈ D, c.isDigit = true)
    (hR : ∀ c, R.head? = some c → c.isDigit = false) :
    (D ++ R).takeWhile Char.isDigit = D := by
  induction D with
  | nil =>
      cases R with
      | nil => rfl
      | cons c t => simp [List.takeWhile_cons, hR c rfl]
  | cons d D2 ih =>
      have hd : d.isDigit = true := hdd d (by simp)
      simp [List.takeWhile_cons, hd, ih (fun c hc => hdd c (by simp [hc]))]

theorem getD_mem_of_lt {l : List Char} {j : Nat} (d : Char) (h : j < l.length) :
    l.getD j d ∈ l := by
  rw [List.getD_eq_getElem l d h]
  exact List.getElem_mem h

theorem getD_mem_take {l : List Char} {q k : Nat} (d : Char) (hq : q < k)
    (hql : q < l.length) : l.getD q d ∈ l.take k := by
  have hql2 : q < (l.take k).length := by
    rw [List.length_take]; omega
  have he : (l.take k)[q] = l[q] := List.getElem_take l
  rw [List.getD_eq_getElem l d hql, ← he]
  exact List.getElem_mem hql2

theorem digit_ne_newline {c : Char} (h : c.isDigit = true) : c ≠ '\n' := by
  intro he
  rw [he] at h
  exact absurd h (by decide)

theorem data_asString (l : List Char) : l.asString.data = l := rfl

theorem string_eq_of_data {s t : String} (h : s.data = t.data) : s = t := by
  cases s; cases t; simp_all

theorem head?_dropWhile_false (p : Char → Bool) :
    ∀ (l : List Char) (c : Char), (l.dropWhile p).head? = some c → p c = false := by
  intro l
  induction l with
  | nil => intro c h; simp [List.dropWhile] at h
  | cons a t ih =>
      intro c h
      by_cases hpa : p a = true
      · rw [List.dropWhile_cons, if_pos hpa] at h
        exact ih c h
      · rw [List.dropWhile_cons, if_neg hpa] at h
        simp only [List.head?_cons, Option.some.injEq] at h
        rw [← h]
        simpa using hpa

theorem tail_rev_blocked_of_no_R {rest : List Char} (h : ∀ c ∈ rest, c ≠ 'R') :
    tail_rev_blocked rest := by
  intro j hjR _
  exfalso
  by_cases hjl : j < rest.length
  · exact h _ (getD_mem_of_lt ' ' hjl) hjR
  · rw [List.getD_eq_default _ ' ' (Nat.le_of_not_lt hjl)] at hjR
    exact absurd hjR (by decide)

theorem getLast?_filter_range_max (p : Nat → Bool) :
    ∀ n m : Nat, ((List.range n).filter p).getLast? = some m →
      p m = true ∧ m < n ∧ ∀ k, k < n → p k = true → k ≤ m := by
  intro n
  induction n with
  | zero => intro m h; rw [List.range_zero] at h; simp at h
  | succ n ih =>
      intro m h
      rw [List.range_succ, List.filter_append] at h
      by_cases hpn : p n = true
      · rw [show List.filter p [n] = [n] by simp [hpn], List.getLast?_concat] at h
        have hmn : m = n := by injection h with h2; exact h2.symm
        subst hmn
        exact ⟨hpn, Nat.lt_succ_self m, fun k hk _ => by omega⟩
      · have hpn2 : p n = false := by simpa using hpn
        rw [show List.filter p [n] = [] by simp [hpn2], List.append_nil] at h
        obtain ⟨h1, h2, h3⟩ := ih m h
        refine ⟨h1, Nat.lt_succ_of_lt h2, fun k hk hpk => ?max⟩
        rcases Nat.lt_succ_iff_lt_or_eq.mp hk with h4 | h4
        · exact h3 k h4 hpk
        · subst h4
          rw [hpk] at hpn2
          exact absurd hpn2 (by simp)

theorem revValidAt_append (b ds rest : List Char)
    (hb : b ≠ []) (hbn : ∀ c ∈ b, c ≠ '\n')
    (hd : ds ≠ []) (hdd : ∀ c ∈ ds, c.isDigit = true) :
    revValidAt (b ++ 'R' :: (ds ++ rest)) b.length = true := by
  obtain ⟨d0, ds2, rfl⟩ := List.exists_cons_of_ne_nil hd
  have hblen : 0 < b.length := List.length_pos.mpr hb
  have h1 : (b ++ 'R' :: (d0 :: ds2 ++ rest)).getD b.length ' ' = 'R' := by
    rw [List.getD_append_right b _ ' ' b.length (Nat.le_refl _)]
    simp
  have h2 : (b ++ 'R' :: (d0 :: ds2 ++ rest)).getD (b.length + 1) ' ' = d0 := by
    rw [List.getD_append_right b _ ' ' (b.length + 1) (Nat.le_succ_of_le (Nat.le_refl _))]
    simp
  have h3 : (b ++ 'R' :: (d0 :: ds2 ++ rest)).take b.length = b :=
    List.take_left b ('R' :: (d0 :: ds2 ++ rest))
  simp only [revValidAt, Bool.and_eq_true, decide_eq_true_eq, List.all_eq_true]
  refine ⟨⟨⟨⟨hblen, ?goal2⟩, ?goal3⟩, ?goal4⟩, ?goal5⟩
  case goal2 => simp only [List.length_append, List.length_cons]; omega
  case goal3 => rw [h1]; simp
  case goal4 => rw [h2]; exact hdd d0 (by simp)
  case goal5 =>
    rw [h3]
    intro c hc
    simpa using hbn c hc

theorem revValidAt_big_false (b ds rest : List Char)
    (hdd : ∀ c ∈ ds, c.isDigit = true) (hH : tail_rev_blocked rest)
    (k : Nat) (hk : b.length < k) :
    revValidAt (b ++ 'R' :: (ds ++ rest)) k = false := by
  by_contra hval
  have hval2 : revValidAt (b ++ 'R' :: (ds ++ rest)) k = true := by
    simpa using hval
  simp only [revValidAt, Bool.and_eq_true, decide_eq_true_eq, beq_iff_eq,
    List.all_eq_true] at hval2
  obtain ⟨⟨⟨⟨_, h2⟩, hR⟩, hDig⟩, hAll⟩ := hval2
  have hlen : (b ++ 'R' :: (ds ++ rest)).length
      = b.length + 1 + ds.length + rest.length := by
    simp only [List.length_append, List.length_cons]
    omega
  -- the char at position k lies in `ds ++ rest`: in the digit run it cannot
  -- be 'R', and in the tail any 'R'-digit pair has a newline before it that
  -- falsifies the all-newline-free condition on the prefix
  have hks : b.length ≤ k := Nat.le_of_lt hk
  rw [List.getD_append_right b _ ' ' k hks] at hR
  have hsplit : k - b.length = (k - b.length - 1) + 1 := by omega
  rw [hsplit, List.getD_cons_succ] at hR
  set j := k - b.length - 1 with hj
  by_cases hjd : j < ds.length
  · rw [List.getD_append ds rest ' ' j hjd] at hR
    have hmem : ds.getD j ' ' ∈ ds := getD_mem_of_lt ' ' hjd
    have hdj := hdd _ hmem
    rw [hR] at hdj
    exact absurd hdj (by decide)
  · have hjd2 : ds.length ≤ j := Nat.le_of_not_lt hjd
    rw [List.getD_append_right ds rest ' ' j hjd2] at hR
    have hks1 : b.length ≤ k + 1 := by omega
    rw [List.getD_append_right b _ ' ' (k + 1) hks1] at hDig
    have hsplit1 : k + 1 - b.length = (j + 1) + 1 := by omega
    rw [hsplit1, List.getD_cons_succ] at hDig
    rw [List.getD_append_right ds rest ' ' (j + 1) (by omega)] at hDig
    have hjj : j + 1 - ds.length = (j - ds.length) + 1 := by omega
    rw [hjj] at hDig
    obtain ⟨m, hm, hnl⟩ := hH (j - ds.length) hR hDig
    have hmlen : m < rest.length := by
      by_contra hge
      rw [List.getD_eq_default _ ' ' (by omega)] at hnl
      exact absurd hnl (by decide)
    have hqk : b.length + 1 + ds.length + m < k := by omega
    have hqlen : b.length + 1 + ds.length + m < (b ++ 'R' :: (ds ++ rest)).length := by
      rw [hlen]; omega
    have hgetq : (b ++ 'R' :: (ds ++ rest)).getD (b.length + 1 + ds.length + m) ' '
        = '\n' := by
      rw [List.getD_append_right b _ ' ' _ (by omega)]
      have e1 : b.length + 1 + ds.length + m - b.length = (ds.length + m) + 1 := by omega
      rw [e1, List.getD_cons_succ, List.getD_append_right ds rest ' ' _ (by omega)]
      have e2 : ds.length + m - ds.length = m := by omega
      rw [e2]
      exact hnl
    have hmem2 : '\n' ∈ (b ++ 'R' :: (ds ++ rest)).take k := by
      rw [← hgetq]
      exact getD_mem_take ' ' hqk hqlen
    have hcontra := hAll '\n' hmem2
    simp at hcontra

theorem lastRevPos_append (b ds rest : List Char)
    (hb : b ≠ []) (hbn : ∀ c ∈ b, c ≠ '\n')
    (hd : ds ≠ []) (hdd : ∀ c ∈ ds, c.isDigit = true)
    (hH : tail_rev_blocked rest) :
    lastRevPos (b ++ 'R' :: (ds ++ rest)) = some b.length := by
  unfold lastRevPos
  apply getLast?_filter_range
  · have : 0 < ds.length := List.length_pos.mpr hd
    simp only [List.length_append, List.length_cons]
    omega
  · exact revValidAt_append b ds rest hb hbn hd hdd
  · intro k _ hval
    by_contra hgt
    have hk : b.length < k := by omega
    simp [revValidAt_big_false b ds rest hdd hH k hk] at hval

/-!
## C3 — the revision resolver
-/

/-- C3, counterexample: the claim says any id not matching the grammar *in
full* is returned as itself with revision 0, but `re.match` only anchors at
the start: `"P1R2X"` does not match the grammar in full, yet the resolver
returns `("P1", 2)`, not `("P1R2X", 0)`. -/
theorem c3_counterexample :
    spec_full_rev_form "P1R2X" = false
    ∧ extract_reference__and_revision_from_id "P1R2X" ≠ ("P1R2X", 0)
    ∧ extract_reference__and_revision_from_id "P1R2X" = ("P1", 2) := by decide

/-- Every id containing the prefix-`R`-digit pattern decomposes as
`base ++ "R" ++ digits ++ rest` at the greedy match position: `base` nonempty
and newline-free, `digits` a nonempty all-digit run, `rest` starting with a
non-digit, and every later `R`-digit pair in `rest` blocked by a newline
before it (otherwise the greedy match would have picked that later `R`). -/
theorem rev_pattern_decomposition :
    ∀ id : String, has_rev_pattern id = true →
      ∃ b ds rest : String,
        id = b ++ "R" ++ ds ++ rest
        ∧ b.data ≠ [] ∧ (∀ c ∈ b.data, c ≠ '\n')
        ∧ ds.data ≠ [] ∧ (∀ c ∈ ds.data, c.isDigit = true)
        ∧ tail_rev_blocked rest.data
        ∧ (∀ c, rest.data.head? = some c → c.isDigit = false) := by
  intro id hp
  set cs := id.data with hcs
  have hex : ∃ x ∈ List.range cs.length, revValidAt cs x = true := by
    simpa [has_rev_pattern, List.any_eq_true] using hp
  obtain ⟨x, hx, hpx⟩ := hex
  have hne : (List.range cs.length).filter (revValidAt cs) ≠ [] :=
    List.ne_nil_of_mem (List.mem_filter.mpr ⟨hx, hpx⟩)
  obtain ⟨i, hi⟩ : ∃ i, ((List.range cs.length).filter (revValidAt cs)).getLast? = some i := by
    cases hgl : ((List.range cs.length).filter (revValidAt cs)).getLast? with
    | none => exact absurd (List.getLast?_eq_none_iff.mp hgl) hne
    | some i => exact ⟨i, rfl⟩
  obtain ⟨hvi, hin, hmax⟩ := getLast?_filter_range_max (revValidAt cs) cs.length i hi
  simp only [revValidAt, Bool.and_eq_true, decide_eq_true_eq, beq_iff_eq,
    List.all_eq_true] at hvi
  obtain ⟨⟨⟨⟨h1i, h2i⟩, hRi⟩, hDi⟩, hAlli⟩ := hvi
  set D := (cs.drop (i + 1)).takeWhile Char.isDigit with hDdef
  set R := (cs.drop (i + 1)).dropWhile Char.isDigit with hRdef
  have hilen : i < cs.length := by omega
  have hgetRi : cs[i] = 'R' := by
    rw [← List.getD_eq_getElem cs ' ' hilen]
    exact hRi
  have hcsdec : cs = cs.take i ++ 'R' :: (D ++ R) := by
    rw [hDdef, hRdef, List.takeWhile_append_dropWhile Char.isDigit (cs.drop (i + 1))]
    conv_lhs => rw [← List.take_append_drop i cs]
    congr 1
    rw [List.drop_eq_getElem_cons hilen, hgetRi]
  have htklen : (cs.take i).length = i := by
    rw [List.length_take]; omega
  have hlen2 : cs.length = i + 1 + D.length + R.length := by
    conv_lhs => rw [hcsdec]
    simp only [List.length_append, List.length_cons, htklen]
    omega
  refine ⟨(cs.take i).asString, D.asString, R.asString, ?deco, ?bne, ?bnl, ?dsne,
    ?dsdig, ?hH, ?hhd⟩
  case deco =>
    apply string_eq_of_data
    rw [← hcs]
    simp only [String.data_append, data_asString, show "R".data = ['R'] from rfl]
    rw [List.append_assoc, List.append_assoc, List.singleton_append, ← hcsdec]
  case bne =>
    rw [data_asString]
    intro hnil
    rw [hnil] at htklen
    simp at htklen
    omega
  case bnl =>
    rw [data_asString]
    intro c hc
    simpa using hAlli c hc
  case dsne =>
    rw [data_asString, hDdef]
    have h6 : i + 1 < cs.length := h2i
    have hd1 : (cs[i + 1]).isDigit = true := by
      rw [← List.getD_eq_getElem cs ' ' h6]
      exact hDi
    rw [List.drop_eq_getElem_cons h6, List.takeWhile_cons, if_pos hd1]
    simp
  case dsdig =>
    rw [data_asString, hDdef]
    intro c hc
    exact List.mem_takeWhile_imp hc
  case hhd =>
    rw [data_asString, hRdef]
    intro c hc
    exact head?_dropWhile_false Char.isDigit _ c hc
  case hH =>
    rw [data_asString]
    intro j hjR hjD
    by_contra hno
    push_neg at hno
    have hjlen : j < R.length := by
      by_contra hge
      rw [List.getD_eq_default _ ' ' (by omega)] at hjR
      exact absurd hjR (by decide)
    have hjlen1 : j + 1 < R.length := by
      by_contra hge
      rw [List.getD_eq_default _ ' ' (by omega)] at hjD
      exact absurd hjD (by decide)
    set k := i + 1 + D.length + j with hkdef
    have hkval : revValidAt cs k = true := by
      simp only [revValidAt, Bool.and_eq_true, decide_eq_true_eq, beq_iff_eq,
        List.all_eq_true]
      refine ⟨⟨⟨⟨by omega, by omega⟩, ?gR⟩, ?gD⟩, ?gAll⟩
      case gR =>
        conv_lhs => rw [hcsdec]
        rw [List.getD_append_right _ _ ' ' _ (by rw [htklen]; omega)]
        have e1 : k - (cs.take i).length = (D.length + j) + 1 := by rw [htklen]; omega
        rw [e1, List.getD_cons_succ, List.getD_append_right D R ' ' _ (by omega)]
        have e2 : D.length + j - D.length = j := by omega
        rw [e2]
        exact hjR
      case gD =>
        conv_lhs => rw [hcsdec]
        rw [List.getD_append_right _ _ ' ' _ (by rw [htklen]; omega)]
        have e1 : k + 1 - (cs.take i).length = (D.length + (j + 1)) + 1 := by
          rw [htklen]; omega
        rw [e1, List.getD_cons_succ, List.getD_append_right D R ' ' _ (by omega)]
        have e2 : D.length + (j + 1) - D.length = j + 1 := by omega
        rw [e2]
        exact hjD
      case gAll =>
        have htk : cs.take k = cs.take i ++ 'R' :: (D ++ R.take j) := by
          conv_lhs => rw [hcsdec]
          rw [List.take_append_eq_append_take,
            List.take_of_length_le (by rw [htklen]; omega)]
          congr 1
          have e3 : k - (cs.take i).length = (D.length + j) + 1 := by rw [htklen]; omega
          rw [e3, List.take_succ_cons]
          congr 1
          rw [List.take_append_eq_append_take, List.take_of_length_le (by omega)]
          have e4 : D.length + j - D.length = j := by omega
          rw [e4]
        rw [htk]
        intro y hy
        rcases List.mem_append.mp hy with hmb | hmrest
        · exact hAlli y hmb
        · rcases List.mem_cons.mp hmrest with hyR | hmdr
          · subst hyR
            decide
          · rcases List.mem_append.mp hmdr with hmD | hmRj
            · have hdig : y.isDigit = true := List.mem_takeWhile_imp (hDdef ▸ hmD)
              simpa using digit_ne_newline hdig
            · obtain ⟨m, hmlt, hxm⟩ := List.mem_iff_getElem.mp hmRj
              have hmj : m < j := by
                rw [List.length_take] at hmlt
                omega
              have hmR : m < R.length := by
                rw [List.length_take] at hmlt
                omega
              have he6 : (R.take j)[m] = R[m] := List.getElem_take R
              have hyval : y = R.getD m ' ' := by
                rw [List.getD_eq_getElem R ' ' hmR, ← he6, hxm]
              have hnonl := hno m hmj
              rw [← hyval] at hnonl
              simpa using hnonl
    have hklen : k < cs.length := by omega
    have hle := hmax k hklen hkval
    omega

/-- C3 (amended): the resolver is total and never fails, and `re.match`
anchors only at the start of the id.  (1) An id with no nonempty newline-free
prefix followed by a literal `R` and a digit resolves to `(id, 0)`.  (2) An
id of the form `base ++ "R" ++ digits ++ rest` — `base` nonempty and
newline-free, at least one digit, `rest` starting with a non-digit and every
later `R`-digit pair in `rest` blocked by an earlier newline — resolves to
`(base, digits)`: the trailing characters are ignored rather than forcing the
`(id, 0)` fallback; with `rest = ""` this is the claim's first half for
full-grammar ids.  (3) Every id with the pattern decomposes in exactly that
shape, so (1)–(3) together determine the resolver's value on every input. -/
theorem c3_revision_resolver_amended :
    (∀ id : String, has_rev_pattern id = false →
        extract_reference__and_revision_from_id id = (id, 0))
    ∧ (∀ b ds rest : String, b.data ≠ [] → (∀ c ∈ b.data, c ≠ '\n') →
        ds.data ≠ [] → (∀ c ∈ ds.data, c.isDigit = true) →
        tail_rev_blocked rest.data → (∀ c, rest.data.head? = some c → c.isDigit = false) →
        extract_reference__and_revision_from_id (b ++ "R" ++ ds ++ rest)
          = (b, digitsToNat ds.data))
    ∧ (∀ id : String, has_rev_pattern id = true →
        ∃ b ds rest : String,
          id = b ++ "R" ++ ds ++ rest
          ∧ b.data ≠ [] ∧ (∀ c ∈ b.data, c ≠ '\n')
          ∧ ds.data ≠ [] ∧ (∀ c ∈ ds.data, c.isDigit = true)
          ∧ tail_rev_blocked rest.data
          ∧ (∀ c, rest.data.head? = some c → c.isDigit = false)) := by
  refine ⟨?nopat, ?resolve, rev_pattern_decomposition⟩
  case nopat =>
    intro id h
    have h2 : ∀ x ∈ List.range id.data.length, ¬ revValidAt id.data x = true := by
      simpa [has_rev_pattern, List.any_eq_false] using h
    have hfilter : (List.range id.data.length).filter (revValidAt id.data) = [] := by
      rw [List.filter_eq_nil_iff]
      exact h2
    unfold extract_reference__and_revision_from_id pyRefRevMatch lastRevPos
    rw [hfilter]
    rfl
  case resolve =>
    intro b ds rest hb hbn hd hdd hH hrd
    have hdata : (b ++ "R" ++ ds ++ rest).data = b.data ++ 'R' :: (ds.data ++ rest.data) := by
      simp only [String.data_append, show "R".data = ['R'] from rfl, List.append_assoc,
        List.singleton_append, List.cons_append, List.nil_append]
    have hm : pyRefRevMatch (b ++ "R" ++ ds ++ rest) = some (b, digitsToNat ds.data) := by
      unfold pyRefRevMatch
      rw [hdata, lastRevPos_append b.data ds.data rest.data hb hbn hd hdd hH]
      show some (((b.data ++ 'R' :: (ds.data ++ rest.data)).take b.data.length).asString,
        digitsToNat (((b.data ++ 'R' :: (ds.data ++ rest.data)).drop
          (b.data.length + 1)).takeWhile Char.isDigit)) = some (b, digitsToNat ds.data)
      have htake : (b.data ++ 'R' :: (ds.data ++ rest.data)).take b.data.length = b.data :=
        List.take_left b.data _
      have hcat : b.data ++ 'R' :: (ds.data ++ rest.data)
          = (b.data ++ ['R']) ++ (ds.data ++ rest.data) := by simp
      have hdrop : (b.data ++ 'R' :: (ds.data ++ rest.data)).drop (b.data.length + 1)
          = ds.data ++ rest.data := by
        rw [hcat, show b.data.length + 1 = (b.data ++ ['R']).length by simp, List.drop_left]
      rw [htake, hdrop, takeWhile_digit_append ds.data rest.data hdd hrd]
      rfl
    unfold extract_reference__and_revision_from_id
    rw [hm]

/-- C3, witness: `"NumR42X"` (built as `base ++ "R" ++ digits ++ garbage`)
resolves to `("Num", 42)`, and `"P1R2RX"` — trailing garbage that itself
contains an `R` — is covered by the decomposition clause. -/
theorem c3_witness :
    extract_reference__and_revision_from_id ("Num" ++ "R" ++ "42" ++ "X")
      = ("Num", digitsToNat "42".data)
    ∧ (∃ b ds rest : String,
        "P1R2RX" = b ++ "R" ++ ds ++ rest
        ∧ b.data ≠ [] ∧ (∀ c ∈ b.data, c ≠ '\n')
        ∧ ds.data ≠ [] ∧ (∀ c ∈ ds.data, c.isDigit = true)
        ∧ tail_rev_blocked rest.data
        ∧ (∀ c, rest.data.head? = some c → c.isDigit = false)) := by
  constructor
  · apply c3_revision_resolver_amended.2.1 "Num" "42" "X"
    · decide
    · decide
    · decide
    · decide
    · exact tail_rev_blocked_of_no_R (by decide)
    · intro c hc
      have hc2 : some 'X' = some c := hc
      injection hc2 with h
      rw [← h]
      decide
  · exact c3_revision_resolver_amended.2.2 "P1R2RX" (by decide)

/-!
## C1 — the latest pointer and revision precedence
-/

theorem dictLookup_dictInsert {β : Type} (d : List (String × β)) (k k2 : String) (v : β) :
    dictLookup (dictInsert d k v) k2 = if k = k2 then some v else dictLookup d k2 := by
  induction d with
  | nil => simp [dictInsert, dictLookup]
  | cons hd t ih =>
      obtain ⟨hk, hv⟩ := hd
      simp only [dictInsert]
      by_cases h1 : hk = k
      · rw [if_pos h1]
        by_cases h2 : k = k2 <;> simp [dictLookup, h1, h2]
      · rw [if_neg h1]
        by_cases h3 : hk = k2
        · have h4 : ¬ (k = k2) := fun h => h1 (h3.trans h.symm)
          simp [dictLookup, h3, h4]
        · simp [dictLookup, h3, ih]

theorem dictHasKey_dictInsert_self {β : Type} (d : List (String × β)) (k : String) (v : β) :
    dictHasKey (dictInsert d k v) k = true := by
  rw [dictHasKey, dictLookup_dictInsert]
  simp

/-- C1, failing-input evaluation: with `P1234R1` (rev 1) fed before `P1234`
(rev 0), the operator-precedence slip in `_rebuild_index` leaves
`latest_revision = 0`, the tie-break always fires, and the group's latest
pointer ends at `P1234` — the *last processed* id, not the highest revision.
`resolve("P1234")` then returns the revision-0 record; with the feed order
reversed it returns the revision-1 record, so feed order, not revision,
decides the outcome. -/
theorem c1_code_bug_eval :
    (dictLookup (rebuild_index c1payload) "P1234").map RefGroup.latest = some (some "P1234")
    ∧ fetch_info_for (rebuild_index c1payload) "P1234" = ("P1234", some c1infoB)
    ∧ fetch_info_for (rebuild_index c1payloadReversed) "P1234" = ("P1234R1", some c1infoA)
    ∧ c1infoA ≠ c1infoB := by decide

/-!
## C10 — the latest-pointer invariant
-/

/-- C10: after any rebuild, every group in the installed index carries a
latest pointer, and the id it designates is a key of that group's id-to-record
mapping. -/
theorem c10_latest_pointer_invariant :
    ∀ (payload : List (String × DocInfo)) (ref : String) (g : RefGroup),
      dictLookup (rebuild_index payload) ref = some g →
      ∃ lid, g.latest = some lid ∧ dictHasKey g.entries lid = true := by
  suffices h : ∀ (payload : List (String × DocInfo)) (acc : List (String × RefGroup)),
      (∀ ref g, dictLookup acc ref = some g →
        ∃ lid, g.latest = some lid ∧ dictHasKey g.entries lid = true) →
      ∀ ref g, dictLookup (payload.foldl rebuild_step acc) ref = some g →
        ∃ lid, g.latest = some lid ∧ dictHasKey g.entries lid = true by
    intro payload ref g hg
    exact h payload [] (fun ref2 g2 hg2 => by simp [dictLookup] at hg2) ref g hg
  intro payload
  induction payload with
  | nil => intro acc hacc; simpa using hacc
  | cons kv rest ih =>
      intro acc hacc
      rw [List.foldl_cons]
      apply ih
      intro ref g hg
      simp only [rebuild_step, ge_iff_le, Nat.zero_le, if_true] at hg
      rw [dictLookup_dictInsert] at hg
      by_cases h1 : (extract_reference__and_revision_from_id kv.1).1 = ref
      · rw [if_pos h1] at hg
        cases hg
        exact ⟨kv.1, rfl, dictHasKey_dictInsert_self _ kv.1 kv.2⟩
      · rw [if_neg h1] at hg
        exact hacc ref g hg

/-- C10, witness: the invariant instantiated at the concrete two-entry feed. -/
theorem c10_witness :
    ∃ lid, (RefGroup.mk [("P1234R1", c1infoA), ("P1234", c1infoB)] (some "P1234")).latest
        = some lid
      ∧ dictHasKey [("P1234R1", c1infoA), ("P1234", c1infoB)] lid = true :=
  c10_latest_pointer_invariant c1payload "P1234"
    (RefGroup.mk [("P1234R1", c1infoA), ("P1234", c1infoB)] (some "P1234")) (by decide)

/-!
## C2 — keyword search
-/

/-- C2, counterexample: search keywords are matched case-sensitively against
the lower-cased keyword field, so the claim's case-insensitive reading fails:
the entry derived from the `"Concepts"` paper is not returned for the query
`["Concepts"]`, although "concepts" is case-insensitively a substring of its
keyword field. -/
theorem c2_counterexample :
    rebuild_search_index (rebuild_index c2payload) = .ok [c2entry]
    ∧ PaperIndex.search [c2entry] ["Concepts"] none = []
    ∧ spec_matches_ci ["Concepts"] none c2entry = true
    ∧ ¬ (∀ e, e ∈ PaperIndex.search [c2entry] ["Concepts"] none ↔
          e ∈ [c2entry] ∧ spec_matches_ci ["Concepts"] none e = true) := by
  refine ⟨by decide, by decide, by decide, fun h => ?contra⟩
  have h2 := (h c2entry).mpr ⟨by decide, by decide⟩
  rw [show PaperIndex.search [c2entry] ["Concepts"] none = [] from by decide] at h2
  simp at h2

/-- C2 (amended): `search` returns exactly the entries of the search index
such that every keyword is — *case-sensitively* — a substring of the entry's
(lower-cased) keyword field and the type filter matches (unset, or equal to
the entry's type), as a permutation of that filtered set sorted by parsed
date descending; and a record date that is absent, or unparseable under every
accepted format, is parsed as the epoch. -/
theorem c2_search_amended :
    (∀ (sidx : List SearchEntry) (keywords : List String) (ty : Option String),
        (PaperIndex.search sidx keywords ty).Perm (sidx.filter (matches_search keywords ty)))
    ∧ (∀ (sidx : List SearchEntry) (keywords : List String) (ty : Option String),
        (PaperIndex.search sidx keywords ty).Sorted dateGe)
    ∧ (∀ (sidx : List SearchEntry) (keywords : List String) (ty : Option String)
        (e : SearchEntry),
        e ∈ PaperIndex.search sidx keywords ty ↔
          e ∈ sidx ∧ (∀ kw ∈ keywords, isSubstrOf kw e.keywords = true)
            ∧ (ty = none ∨ ty = some e.type))
    ∧ get_date none = epochDate
    ∧ (∀ s : String, parse_date_any s.data = none → get_date (some s) = epochDate) := by
  have hperm : ∀ (sidx : List SearchEntry) (keywords : List String) (ty : Option String),
      (PaperIndex.search sidx keywords ty).Perm (sidx.filter (matches_search keywords ty)) :=
    fun sidx keywords ty => List.perm_insertionSort dateGe _
  refine ⟨hperm, ?sorted, ?mem, by decide, ?unparse⟩
  case sorted =>
    intro sidx keywords ty
    exact List.sorted_insertionSort dateGe _
  case mem =>
    intro sidx keywords ty e
    rw [(hperm sidx keywords ty).mem_iff, List.mem_filter]
    constructor
    · rintro ⟨hmem, hmatch⟩
      simp only [matches_search, Bool.and_eq_true, List.all_eq_true] at hmatch
      refine ⟨hmem, hmatch.1, ?ty1⟩
      cases ty with
      | none => exact Or.inl rfl
      | some t =>
          right
          have h5 := hmatch.2
          simp only [beq_iff_eq] at h5
          rw [h5]
    · rintro ⟨hmem, hkw, hty⟩
      refine ⟨hmem, ?match2⟩
      simp only [matches_search, Bool.and_eq_true, List.all_eq_true]
      refine ⟨hkw, ?ty2⟩
      cases ty with
      | none => rfl
      | some t =>
          rcases hty with h | h
          · exact absurd h (by simp)
          · simp only [Option.some.injEq] at h
            simp [h]
  case unparse =>
    intro s h
    have h6 : get_date (some s) =
        match parse_date_any s.data with
        | some dt => dt
        | none => epochDate := rfl
    rw [h6, h]

/-- C2, witness: the unparseable-date clause at `"not a date"`, and the
permutation clause at a concrete one-entry index. -/
theorem c2_witness :
    get_date (some "not a date") = epochDate
    ∧ (PaperIndex.search [c2entry] ["concepts"] (some "paper")).Perm
        ([c2entry].filter (matches_search ["concepts"] (some "paper"))) :=
  ⟨c2_search_amended.2.2.2.2 "not a date" (by decide),
   c2_search_amended.1 [c2entry] ["concepts"] (some "paper")⟩

/-!
## C4 — replies to messages without a mention
-/

theorem paperLoop_ok (idx : Index) :
    ∀ refs : List String,
      (∀ r ∈ refs, (∃ s, format_of_reference idx r = .ok s)
        ∨ format_of_reference idx r = .error .keyError) →
      paperLoop idx refs = .ok (paper_success_lines idx refs, paper_fail_logs idx refs) := by
  intro refs h
  induction refs with
  | nil => rfl
  | cons r rest ih =>
      have ihh := ih (fun x hx => h x (List.mem_cons_of_mem r hx))
      rcases h r (List.mem_cons_self r rest) with ⟨s, hs⟩ | hs <;>
        simp [paperLoop, paper_success_lines, paper_fail_logs, List.filterMap_cons, hs, ihh,
          Except.toOption, Except.map, Bind.bind, Except.bind]

/-- C4, counterexample: a surviving message with *no* bracketed references
(`"hello world"`) still produces a reply — `reply_to` is called
unconditionally with the empty joined string — where the claim says such a
message yields no reply at all. -/
theorem c4_counterexample :
    collect_references_from_message (mkPost "m1" "hello world") false = []
    ∧ run_once (mkCtx [] []) [mkPost "m1" "hello world"]
        = .ok [BotAction.reply "chan-1" "m1" ""] := by decide

/-- C4 (amended): for every surviving message that does not start with a
mention, a reply is emitted *unconditionally* — one reply whose text is the
newline-join of the successfully formatted bracketed references (provided each
extracted reference either formats or fails with a missing-field `KeyError`);
in particular a message with no bracketed references yields a single reply
with empty text, not the absence of a reply. -/
theorem c4_no_mention_reply_amended :
    ∀ (idx : Index) (post : Post) (user : User),
      (∀ r ∈ deduplicate (collect_references_from_message post false),
          (∃ s, format_of_reference idx r = .ok s)
          ∨ format_of_reference idx r = .error .keyError) →
      _handle_paper_request idx [] post user false
        = .ok (paper_fail_logs idx (deduplicate (collect_references_from_message post false))
            ++ [reply_to post (String.intercalate "\n"
                (paper_success_lines idx (deduplicate (collect_references_from_message post false))))])
      ∧ (collect_references_from_message post false = [] →
          _handle_paper_request idx [] post user false = .ok [reply_to post ""]) := by
  intro idx post user h
  have hl := paperLoop_ok idx _ h
  constructor
  · simp only [_handle_paper_request]
    rw [hl]
  · intro hempty
    simp only [_handle_paper_request]
    rw [hempty]
    rfl

/-- C4, witness: the amended claim at a reference-free message — exactly one
reply, with empty text. -/
theorem c4_witness :
    _handle_paper_request (rebuild_index c1payload) [] (mkPost "m2" "hello again") aliceUser false
      = .ok [reply_to (mkPost "m2" "hello again") ""] :=
  (c4_no_mention_reply_amended (rebuild_index c1payload) (mkPost "m2" "hello again") aliceUser
    (fun r hr => by
      rw [show deduplicate (collect_references_from_message (mkPost "m2" "hello again") false)
          = [] from by decide] at hr
      exact absurd hr (List.not_mem_nil r))).2 (by decide)

/-!
## C5 — a malformed search command crashes the poll cycle
-/

/-- C5, failing-input evaluation: `"@paperbot search"` (a search command with
no arguments) survives filtering, is dispatched to `_do_search`, and the
unguarded `tokens[2]` read raises `IndexError`, which propagates uncaught out
of the whole poll cycle instead of degrading to a reply or a skip. -/
theorem c5_search_without_arguments_crashes :
    tokenize "@paperbot search" = ["@paperbot", "search"]
    ∧ run_once (mkCtx [] []) [mkPost "m4" "@paperbot search"] = .error .indexError := by decide

/-!
## C6 — partial-failure tolerance of the paper-lookup path
-/

/-- C6, counterexample: `P1`'s record has a `github_url` with no
`/issues/<digits>` part, so formatting it raises `AttributeError` — which the
per-reference `except KeyError` does *not* catch.  The whole
`_handle_paper_request` call dies and no reply is sent at all, even though
the other reference `P2` resolves and formats successfully; the claim's
"every other reference still appears in the single reply that is sent" fails. -/
theorem c6_counterexample :
    (format_of_reference (rebuild_index c6payload) "P2").toOption.isSome = true
    ∧ _handle_paper_request (rebuild_index c6payload) [] (mkPost "m3" "[P1] [P2]") aliceUser false
        = .error .attributeError := by decide

/-- C6 (amended): in the default paper-lookup path, whenever every
deduplicated extracted reference either formats successfully or fails with a
missing-field `KeyError`, one reply is sent; a `KeyError` only removes that
reference's line (leaving a log entry, never a reply), and every reference
that formats successfully has its line in the newline-joined reply.  (A
failure outside that class — the `AttributeError` of a paper record whose
`github_url` lacks `/issues/<digits>`, or of an issue record carrying a
`github_url` at all — aborts the whole reply instead, see the
counterexample.) -/
theorem c6_partial_failure_amended :
    ∀ (idx : Index) (tokens : List String) (post : Post) (user : User)
      (collect_bare : Bool),
      (∀ r ∈ deduplicate (collect_references_from_message post collect_bare),
          (∃ s, format_of_reference idx r = .ok s)
          ∨ format_of_reference idx r = .error .keyError) →
      ∃ logs, _handle_paper_request idx tokens post user collect_bare
          = .ok (logs ++ [reply_to post (String.intercalate "\n"
              (paper_success_lines idx (deduplicate (collect_references_from_message post collect_bare))))])
        ∧ (∀ a ∈ logs, a.isReply = false)
        ∧ (∀ r ∈ deduplicate (collect_references_from_message post collect_bare), ∀ s,
            format_of_reference idx r = .ok s →
            s ∈ paper_success_lines idx (deduplicate (collect_references_from_message post collect_bare))) := by
  intro idx tokens post user collect_bare h
  have hl := paperLoop_ok idx _ h
  refine ⟨paper_fail_logs idx (deduplicate (collect_references_from_message post collect_bare)),
    ?eq, ?logs, ?mem⟩
  case eq =>
    simp only [_handle_paper_request]
    rw [hl]
  case logs =>
    intro a ha
    obtain ⟨r, _, hfa⟩ := List.mem_filterMap.mp ha
    cases hfmt : format_of_reference idx r with
    | ok s => rw [hfmt] at hfa; simp at hfa
    | error e =>
        cases e <;> rw [hfmt] at hfa <;> simp at hfa
        rw [← hfa]
        rfl
  case mem =>
    intro r hr s hs
    exact List.mem_filterMap.mpr ⟨r, hr, by rw [hs]; rfl⟩

/-- C6, witness: the amended claim over a two-reference message where one
reference (`P1234`, whose record lacks `long_link`) fails with `KeyError` and
is dropped, while an unknown reference (`N1`) renders the not-found line. -/
theorem c6_witness :
    ∃ logs, _handle_paper_request (rebuild_index c1payload) [] (mkPost "m6" "[P1234] [N1]")
        aliceUser false
        = .ok (logs ++ [reply_to (mkPost "m6" "[P1234] [N1]") (String.intercalate "\n"
            (paper_success_lines (rebuild_index c1payload)
              (deduplicate (collect_references_from_message (mkPost "m6" "[P1234] [N1]") false))))])
      ∧ (∀ a ∈ logs, a.isReply = false)
      ∧ (∀ r ∈ deduplicate (collect_references_from_message (mkPost "m6" "[P1234] [N1]") false),
          ∀ s, format_of_reference (rebuild_index c1payload) r = .ok s →
          s ∈ paper_success_lines (rebuild_index c1payload)
            (deduplicate (collect_references_from_message (mkPost "m6" "[P1234] [N1]") false))) :=
  c6_partial_failure_amended (rebuild_index c1payload) [] (mkPost "m6" "[P1234] [N1]")
    aliceUser false
    (fun r hr => by
      rw [show deduplicate (collect_references_from_message (mkPost "m6" "[P1234] [N1]") false)
          = ["P1234", "N1"] from by decide] at hr
      rcases List.mem_cons.mp hr with h1 | h1
      · subst h1
        right
        decide
      · rcases List.mem_cons.mp h1 with h2 | h2
        · subst h2
          exact Or.inl ⟨":mag: | Sorry, I could not find an issue or paper called `N1` :worried:",
            by decide⟩
        · exact absurd h2 (List.not_mem_nil r))

/-!
## C7 — the kill command's operator gate
-/

/-- C7: for every message whose second token is `kill`, a requester outside
the fixed operator allow-list gets no reply and causes no termination (the
request is only logged), while a requester on the list terminates the process
(`sys.exit(1)`, modeled as the `SystemExit` outcome). -/
theorem c7_kill_operator_gate :
    ∀ (bot : BotIdent) (idx : Index) (sidx : List SearchEntry) (post : Post) (user : User),
      (tokenize post.message).get? 1 = some "kill" →
      (user.username ∈ ["tahonermann", "sbuettner"] →
          _handle_bot_command bot idx sidx post user = .error .systemExit)
      ∧ (user.username ∉ ["tahonermann", "sbuettner"] →
          _handle_bot_command bot idx sidx post user = .ok [.log "Ignoring terminating request"]
            ∧ ∀ a ∈ [BotAction.log "Ignoring terminating request"], a.isReply = false) := by
  intro bot idx sidx post user htok
  have hdispatch : _handle_bot_command bot idx sidx post user = _do_kill post user := by
    simp only [_handle_bot_command, htok, Option.getD_some]
    simp
  constructor
  · intro hop
    rw [hdispatch]
    simp only [_do_kill]
    rw [if_neg (not_not_intro hop)]
  · intro hnop
    rw [hdispatch]
    refine ⟨?eq, ?noreply⟩
    case eq =>
      simp only [_do_kill]
      rw [if_pos hnop]
    case noreply =>
      intro a ha
      rw [List.mem_singleton] at ha
      subst ha
      rfl

/-- C7, witness: `"@paperbot kill"` from the operator `tahonermann`
terminates; from `alice` it is only logged, with no reply. -/
theorem c7_witness :
    _handle_bot_command sampleBot [] [] (mkPost "m5" "@paperbot kill") operatorUser
        = .error .systemExit
    ∧ _handle_bot_command sampleBot [] [] (mkPost "m5" "@paperbot kill") aliceUser
        = .ok [.log "Ignoring terminating request"] :=
  ⟨(c7_kill_operator_gate sampleBot [] [] (mkPost "m5" "@paperbot kill") operatorUser
      (by decide)).1 (by decide),
   ((c7_kill_operator_gate sampleBot [] [] (mkPost "m5" "@paperbot kill") aliceUser
      (by decide)).2 (by decide)).1⟩

/-!
## C8 — at most one command per poll cycle
-/

/-- C8: once the first surviving message that starts with a mention of the
bot is reached, the cycle's outcome is the same whether or not any further
messages follow in the batch — the handler `return`s after dispatching that
one command, so no later message (command or otherwise) is processed. -/
theorem c8_first_command_stops_cycle :
    ∀ (ctx : BotContext) (l1 : List Post) (p : Post) (l2 : List Post),
      filter_posts ctx.now ctx.bot.id p = true →
      pyStartsWith p.message ("@" ++ ctx.bot.username) = true →
      runPosts ctx (l1 ++ p :: l2) = runPosts ctx (l1 ++ [p]) := by
  intro ctx l1 p l2 hf hs
  induction l1 with
  | nil =>
      simp only [List.nil_append]
      simp only [runPosts, hf, hs, if_true]
  | cons q l1x ih =>
      simp only [List.cons_append, runPosts]
      by_cases hq : filter_posts ctx.now ctx.bot.id q = true
      · simp only [hq, if_true]
        cases hlog : (if isSubstrOf ("@" ++ ctx.bot.username) q.message then
            _log_request_to_bot ctx.channels q (ctx.usersOf q.user_id) else .ok []) with
        | error e => rfl
        | ok lg =>
            by_cases hqs : pyStartsWith q.message ("@" ++ ctx.bot.username) = true
            · simp only [hqs, if_true]
            · have hqs2 : pyStartsWith q.message ("@" ++ ctx.bot.username) = false := by
                simpa using hqs
              simp only [hqs2, Bool.false_eq_true, if_false, List.append_eq, ih]
      · have hq2 : filter_posts ctx.now ctx.bot.id q = false := by
          simpa using hq
        simp only [hq2, Bool.false_eq_true, if_false, List.append_eq, ih]

/-- C8, witness: appending a further message after the first mention-starting
message does not change the cycle's outcome. -/
theorem c8_witness :
    runPosts (mkCtx [] [])
        ([mkPost "a" "hi there"] ++ mkPost "b" "@paperbot help" :: [mkPost "c" "[P1234] please"])
      = runPosts (mkCtx [] []) ([mkPost "a" "hi there"] ++ [mkPost "b" "@paperbot help"]) :=
  c8_first_command_stops_cycle (mkCtx [] []) [mkPost "a" "hi there"]
    (mkPost "b" "@paperbot help") [mkPost "c" "[P1234] please"] (by decide) (by decide)

/-!
## C9 — message filtering
-/

/-- C9: a message survives `filter_posts` exactly when it is unedited
(`update_at = create_at`), not authored by the bot, not created more than one
minute (60000 ms) before processing time, and not inside a thread (empty
`root_id`); and a message that fails the filter is skipped outright — the
cycle continues exactly as if the message were absent (so it yields no
reply), while surviving messages proceed to classification. -/
theorem c9_message_filtering :
    (∀ (now : Int) (botId : String) (m : Post),
        filter_posts now botId m = true ↔
          (m.update_at = m.create_at ∧ m.user_id ≠ botId
            ∧ ¬(m.create_at < now - 60000) ∧ m.root_id = ""))
    ∧ (∀ (ctx : BotContext) (p : Post) (rest : List Post),
        filter_posts ctx.now ctx.bot.id p = false →
        runPosts ctx (p :: rest) = runPosts ctx rest) := by
  constructor
  · intro now botId m
    simp only [filter_posts, Bool.not_eq_true', Bool.or_eq_false_iff, decide_eq_false_iff_not]
    constructor
    · rintro ⟨⟨⟨h1, h2⟩, h3⟩, h4⟩
      exact ⟨not_not.mp h1, h2, h3, not_not.mp h4⟩
    · rintro ⟨h1, h2, h3, h4⟩
      exact ⟨⟨⟨not_not_intro h1, h2⟩, h3⟩, not_not_intro h4⟩
  · intro ctx p rest hf
    simp only [runPosts, hf, Bool.false_eq_true, if_false]

/-- C9, witness: an edited message (its update timestamp differs from its
creation timestamp) is skipped: the cycle equals the one without it. -/
theorem c9_witness :
    runPosts (mkCtx [] [])
        ({ mkPost "e" "@paperbot help" with update_at := 2000000 } :: [mkPost "f" "hello"])
      = runPosts (mkCtx [] []) [mkPost "f" "hello"] :=
  c9_message_filtering.2 (mkCtx [] [])
    { mkPost "e" "@paperbot help" with update_at := 2000000 } [mkPost "f" "hello"] (by decide)
